import Mathlib

/-!
Verification of the RAIS image server's serving layer, info builder, decoder
dispatch and stream-bridge callbacks, as shallowly embedded Lean definitions
translated from the Go sources (`cmd/rais-server/image_handler.go`,
`openjpeg/image_stream.go`, `plugins/imagick-decoder/image.go`, and the
magick plugin's dispatch file).

Go `int` values that are non-negative by the data model (image dimensions,
tile sizes, level counts) are modelled as `Nat`. Go `int`/`int64` values
that may be compared against arbitrary configured constraints are modelled
as `Int`.
-/

/-- Image output formats recognised by the IIIF URL model (`iiif.Format`). -/
inductive ImgFormat
  | jpg
  | png
  | gif
  | tif
  | jp2
  | pdf
  | webp
deriving DecidableEq, Repr

/-- The fields of a parsed IIIF URL (`iiif.URL`) that the handler reads:
output format, requested output size (`Size.W`, `Size.H`, Go ints), the
full IIIF path (no query string), the info flag, and the identifier. -/
structure IIIFURL where
  format : ImgFormat
  sizeW : Int
  sizeH : Int
  path : String
  isInfo : Bool
  id : String
deriving DecidableEq, Repr

/-- Server-side output constraint (`img.Constraint`): MaxWidth and MaxHeight
are Go `int`, MaxArea is Go `int64`. -/
structure Constraint where
  width : Int
  height : Int
  area : Int
deriving DecidableEq, Repr

/-- Cached image metadata (`ImageInfo` in the rais-server package): all
fields are non-negative integers. -/
structure ImageInfo where
  width : Nat
  height : Nat
  tileWidth : Nat
  tileHeight : Nat
  levels : Nat
deriving DecidableEq, Repr

/-- One entry of the info document's `tiles` array (`iiif.TileSize`); the
height is only emitted when the decoder reported a positive tile height. -/
structure TileSize where
  width : Nat
  height : Option Nat
  scaleFactors : List Nat
deriving DecidableEq, Repr

/-- The scale-factor loop of `buildInfo` (image_handler.go lines 348-361):
starting from `scale = 1` it runs at most `Levels` iterations, stops as soon
as `Width/scale < 16` or `Height/scale < 16` (Go integer division), appends
the surviving scale and doubles it. The first argument pair is the image
width and height, then the current scale, then the remaining level count. -/
def sfLoop (w h : Nat) : Nat → Nat → List Nat
  | _, 0 => []
  | scale, n + 1 =>
    if w / scale < 16 || h / scale < 16 then []
    else scale :: sfLoop w h (2 * scale) n

/-- The complete `scaleFactors` list computed by `buildInfo` for an image of
size `w`×`h` with `levels` pyramid levels. -/
def infoScaleFactors (w h levels : Nat) : List Nat :=
  sfLoop w h 1 levels

/-- The `tiles` construction of `buildInfo` (image_handler.go lines 347-370):
only performed when `TileWidth > 0`; the tile height is attached only when
`TileHeight > 0`. -/
def buildTiles (tw th w h levels : Nat) : Option TileSize :=
  if 0 < tw then
    some { width := tw,
           height := if 0 < th then some th else none,
           scaleFactors := infoScaleFactors w h levels }
  else none

/-- Modelled from the spec: `img.Constraint.SmallerThanAny` is declared in
the `img` package but its body is not among the provided sources.  The spec
states the profile maxima are emitted when the constraint is smaller than
the image in some dimension (width, height, or area), so the predicate is
`c.width < w ∨ c.height < h ∨ c.area < w*h`. -/
def smallerThanAny (c : Constraint) (w h : Nat) : Bool :=
  decide (c.width < (w : Int)) || decide (c.height < (h : Int)) ||
    decide (c.area < (w : Int) * (h : Int))

/-- The generated info document (`iiif.Info`) restricted to the fields the
claims are about: dimensions, the profile maxima (present only when
`buildInfo` sets them), and the tiles entry. -/
structure InfoDoc where
  docID : String
  width : Nat
  height : Nat
  profileMax : Option Constraint
  tiles : Option TileSize
deriving DecidableEq, Repr

/-- The info builder `ImageHandler.buildInfo` (image_handler.go lines
335-373): copies the image dimensions, sets the three profile maxima to the
handler's configured maxima exactly when `SmallerThanAny` holds, and builds
the tiles entry. -/
def buildInfo (maximums : Constraint) (i : ImageInfo) : InfoDoc :=
  { docID := "",
    width := i.width,
    height := i.height,
    profileMax :=
      if smallerThanAny maximums i.width i.height = true then
        some ⟨maximums.width, maximums.height, maximums.area⟩
      else none,
    tiles := buildTiles i.tileWidth i.tileHeight i.width i.height i.levels }

/-- Property bundle for claim C1: the tiles entry is emitted with the tile
width, optional tile height, and a scale-factor list that consists of the
consecutive powers of two `2^0, 2^1, …`, has at most `L` entries, keeps
`min w h / sf ≥ 16` for every entry, and is maximal. -/
def tilesOk (tw th w h L : Nat) : Prop :=
  buildTiles tw th w h L =
    some { width := tw,
           height := if 0 < th then some th else none,
           scaleFactors := infoScaleFactors w h L } ∧
  (∀ i, i < (infoScaleFactors w h L).length →
    (infoScaleFactors w h L).get? i = some (2 ^ i)) ∧
  (infoScaleFactors w h L).length ≤ L ∧
  (∀ x ∈ infoScaleFactors w h L, 16 ≤ min w h / x) ∧
  ((infoScaleFactors w h L).length = L ∨
    min w h / 2 ^ (infoScaleFactors w h L).length < 16)

/-- Request-fatal errors of the `img` package (`img/errors.go`), plus an
`other` constructor for the remaining wrapped decode errors that the
handler's `default` branch maps to 500. -/
inductive ImgErr
  | doesNotExist
  | invalidFiletype
  | dimensionsExceedLimits
  | notHandled
  | other : String → ImgErr
deriving DecidableEq, Repr

/-- The error strings of `img/errors.go`. -/
def ImgErr.errorString : ImgErr → String
  | .doesNotExist => "image file does not exist"
  | .invalidFiletype => "invalid or unknown file type"
  | .dimensionsExceedLimits => "requested image size exceeds server maximums"
  | .notHandled => "image not handled by this decoder"
  | .other m => m

/-- HandlerError: a message plus an HTTP status code. -/
structure HandlerError where
  message : String
  code : Nat
deriving DecidableEq, Repr

/-- NewError constructor used by the handler. -/
def NewError (msg : String) (code : Nat) : HandlerError :=
  ⟨msg, code⟩

/-- newImageResError (image_handler.go lines 250-259): dimension-limit
violations become 501, a missing source becomes 404, everything else 500. -/
def newImageResError : ImgErr → HandlerError
  | .dimensionsExceedLimits =>
    NewError (ImgErr.errorString .dimensionsExceedLimits) 501
  | .doesNotExist => NewError "image resource does not exist" 404
  | e => NewError e.errorString 500

/-- cacheKey (image_handler.go lines 54-59): a non-empty key (the full IIIF
path) is produced only when the tile cache exists, the format is JPEG, the
requested width is positive and at most 1024, and the requested height is
at most 1024. -/
def cacheKey (tileCacheEnabled : Bool) (u : IIIFURL) : String :=
  if tileCacheEnabled = true ∧ u.format = ImgFormat.jpg ∧ 0 < u.sizeW ∧
      u.sizeW ≤ 1024 ∧ u.sizeH ≤ 1024 then
    u.path
  else ""

/-- Largest Go int32, used by the handler for unbounded width and height. -/
def maxInt32 : Int := 2 ^ 31 - 1

/-- Largest Go int64, used by the handler for unbounded area. -/
def maxInt64 : Int := 2 ^ 63 - 1

/-- The constraint-selection step of `ImageHandler.Command`
(image_handler.go lines 398-417): with no info document the handler's
global maximums are used as-is; with an info document the profile maxima
are taken (a profile the builder did not populate reads as zeros, the Go
zero value) and each zero field is replaced by the maximum representable
value of its type. -/
def commandConstraint (info : Option InfoDoc) (globalMax : Constraint) :
    Constraint :=
  match info with
  | none => globalMax
  | some doc =>
    let p := doc.profileMax.getD ⟨0, 0, 0⟩
    { width := if p.width = 0 then maxInt32 else p.width,
      height := if p.height = 0 then maxInt32 else p.height,
      area := if p.area = 0 then maxInt64 else p.area }

/-- What `IIIFRoute` writes back: a redirect with a target, an error status
with a message, one of the success bodies, or an early return after the
Last-Modified helper already handled the response. -/
inductive RouteResult
  | redirect : Nat → String → RouteResult
  | err : Nat → String → RouteResult
  | servedInfo
  | servedCached
  | servedImage
  | headerAbort
deriving DecidableEq, Repr

/-- The HTTP status a route result stands for (successful writes are 200;
an abort inside the header helper has no status of its own). -/
def RouteResult.statusCode : RouteResult → Option Nat
  | .redirect c _ => some c
  | .err c _ => some c
  | .headerAbort => none
  | _ => some 200

/-- Result of `ImageHandler.Command` together with whether a tile-cache
entry was stored. -/
structure CommandOut where
  result : RouteResult
  stored : Bool
deriving DecidableEq, Repr

/-- ImageHandler.Command (image_handler.go lines 386-444).  The decoder,
transform and encoder are external effects, abstracted as oracles: `apply`
is `res.Apply` as a function of the constraint actually passed, and
`encodeOk` tells whether `EncodeImage` succeeded.  The tile-cache insertion
happens exactly when the encode succeeded and `cacheKey` is non-empty. -/
def command (tileCacheEnabled : Bool) (u : IIIFURL) (info : Option InfoDoc)
    (globalMax : Constraint) (headersOk supported : Bool)
    (apply : Constraint → Except ImgErr Unit) (encodeOk : Bool) : CommandOut :=
  if headersOk = false then ⟨.headerAbort, false⟩
  else if supported = false then ⟨.err 501 "Feature not supported", false⟩
  else
    match apply (commandConstraint info globalMax) with
    | .error e =>
      ⟨.err (newImageResError e).code (newImageResError e).message, false⟩
    | .ok _ =>
      if encodeOk = false then ⟨.err 500 "Unable to encode", false⟩
      else ⟨.servedImage, decide (cacheKey tileCacheEnabled u ≠ "")⟩

/-- ImageHandler.getInfo (image_handler.go lines 261-276): the info cache
is consulted first, then a sibling override file, then the image resource
itself; only the last step can fail, via `newImageResError`. -/
def getInfo (cached : Option ImageInfo) (overrideDoc : Option InfoDoc)
    (resource : Except ImgErr ImageInfo) (maximums : Constraint) :
    Except HandlerError InfoDoc :=
  match cached with
  | some ii => .ok (buildInfo maximums ii)
  | none =>
    match overrideDoc with
    | some doc => .ok doc
    | none =>
      match resource with
      | .error e => .error (newImageResError e)
      | .ok ii => .ok (buildInfo maximums ii)

/-- The per-request inputs of `IIIFRoute`, with the external collaborators
(the iiif parser, the plugin path lookup, the filesystem, the decoder and
the encoder) abstracted as oracles.  `parsed` is the result of
`iiif.NewURL` on the stripped path; the `base*` fields are the same oracles
for the path with "/info.json" appended, as consulted by
`isValidBasePath`. -/
structure RouteEnv where
  reqURL : String
  parsed : Option IIIFURL
  baseParsed : Option IIIFURL
  baseCached : Option ImageInfo
  baseOverride : Option InfoDoc
  baseResource : Except ImgErr ImageInfo
  cached : Option ImageInfo
  overrideDoc : Option InfoDoc
  resource : Except ImgErr ImageInfo
  maximums : Constraint
  tileCacheEnabled : Bool
  cacheHit : Bool
  newResource : Except ImgErr Unit
  urlValid : Bool
  headersOk : Bool
  supported : Bool
  apply : Constraint → Except ImgErr Unit
  encodeOk : Bool

/-- isValidBasePath (image_handler.go lines 190-201): true when the path
with "/info.json" appended parses as a IIIF URL and its info loads without
error. -/
def isValidBasePath (e : RouteEnv) : Bool :=
  match e.baseParsed with
  | none => false
  | some _ =>
    match getInfo e.baseCached e.baseOverride e.baseResource e.maximums with
    | .ok _ => true
    | .error _ => false

/-- IIIFRoute (image_handler.go lines 85-186): parse the stripped path;
on failure either redirect a valid base-URI request to its info.json or
answer 400; otherwise load the info document, serve info requests, consult
the tile cache, open the resource, reject invalid command syntax with 400,
and hand over to `command`. -/
def iiifRoute (e : RouteEnv) : RouteResult :=
  match e.parsed with
  | none =>
    if isValidBasePath e = true then .redirect 303 (e.reqURL ++ "/info.json")
    else .err 400 "Invalid IIIF request"
  | some u =>
    match getInfo e.cached e.overrideDoc e.resource e.maximums with
    | .error he => .err he.code he.message
    | .ok doc =>
      if u.isInfo = true then .servedInfo
      else if cacheKey e.tileCacheEnabled u ≠ "" ∧ e.cacheHit = true then
        .servedCached
      else
        match e.newResource with
        | .error e2 =>
          .err (newImageResError e2).code (newImageResError e2).message
        | .ok _ =>
          if e.urlValid = false then .err 400 "Invalid IIIF request"
          else
            (command e.tileCacheEnabled u (some doc) e.maximums e.headersOk
              e.supported e.apply e.encodeOk).result

/-- A URL the claim C2 calls cacheable (JPEG output, both dimensions at
most 1024) but whose requested width is zero, as produced by a
height-only size such as ",200". -/
def uZeroW : IIIFURL :=
  { format := .jpg, sizeW := 0, sizeH := 200,
    path := "a/full/,200/0/default.jpg", isInfo := false, id := "a" }

/-- A cacheable command URL used as witness input for C2. -/
def uCacheable : IIIFURL :=
  { format := .jpg, sizeW := 1024, sizeH := 1024,
    path := "a/full/1024,1024/0/default.jpg", isInfo := false, id := "a" }

/-- The command URL used by the C3/C4 witness environments. -/
def uCmd : IIIFURL :=
  { format := .jpg, sizeW := 512, sizeH := 512,
    path := "a/full/512,512/0/default.jpg", isInfo := false, id := "a" }

/-- Image metadata used by the witness environments. -/
def infoII : ImageInfo := ⟨6000, 4000, 1024, 0, 5⟩

/-- Base witness environment: a parseable command URL, cached image info,
a readable resource, and a fully successful command pipeline. -/
def envBase : RouteEnv :=
  { reqURL := "http://x/iiif/a",
    parsed := some uCmd,
    baseParsed := none,
    baseCached := none,
    baseOverride := none,
    baseResource := .error .doesNotExist,
    cached := some infoII,
    overrideDoc := none,
    resource := .ok infoII,
    maximums := ⟨maxInt32, maxInt32, maxInt64⟩,
    tileCacheEnabled := true,
    cacheHit := false,
    newResource := .ok (),
    urlValid := true,
    headersOk := true,
    supported := true,
    apply := fun _ => .ok (),
    encodeOk := true }

/-- Witness environment for the 400 case: the path does not parse and is
not a valid base path. -/
def env400 : RouteEnv := { envBase with parsed := none }

/-- Witness environment for the 404 case: nothing cached, no override, and
the source file is absent. -/
def env404 : RouteEnv :=
  { envBase with cached := none, resource := .error .doesNotExist }

/-- Witness environment for the 501 case: the feature set rejects the
request. -/
def env501 : RouteEnv := { envBase with supported := false }

/-- Witness environment for the 500 case: the output encoder fails. -/
def env500 : RouteEnv := { envBase with encodeOk := false }

/-- Witness environment for the base-URI redirect: the path itself does
not parse, but with "/info.json" appended it parses and its info loads. -/
def envRedir : RouteEnv :=
  { envBase with
    parsed := none
    baseParsed := some uCmd
    baseCached := some infoII }

/-- Constraint used by the C5 counterexample: narrower than the image but
taller than it. -/
def cxConstraint : Constraint := ⟨50, 200, 1000000000⟩

/-- A 100×100 untiled single-level image used by the C5 counterexample. -/
def cxImage : ImageInfo := ⟨100, 100, 0, 0, 1⟩

/-- Truncation toward zero, the effect of Go's `int(x)` conversion on the
imagick decoder's non-negative scale computation. -/
def ratTrunc (q : Rat) : Int :=
  if q < 0 then -Int.floor (-q) else Int.floor q

/-- The output-size fixup of the imagick decoder's `DecodeImage`
(plugins/imagick-decoder/image.go lines 129-154): with both requested
dimensions zero the full image dimensions are used; with exactly one zero
the missing dimension is computed from the crop-region dimensions as
`int(scale * src)` where `scale` is the ratio of the known dimension to
the crop's corresponding dimension.  The source computes with `float64`;
this model uses exact rationals instead, so it is a faithful model of the
source only on inputs where every binary64 operation is exact: that holds
at the counterexample below (the intermediates 0.25 and 1.75 are exactly
representable) and under the integer-scale hypotheses of the amended
theorem (an exact integer division then an integer product below `2^53`),
and the theorems about this definition are confined to those inputs.  On
other inputs the rounded float64 value can fall below the exact one — in
Go, `int((1.0/49.0)*49.0) = 0` while the exact value is 1 — so no theorem
here asserts the floor of the exact ratio in general. -/
def fillDims (w h areaW areaH dw dh : Int) : Int × Int :=
  if dw = 0 ∧ dh = 0 then (w, h)
  else if dw = 0 ∨ dh = 0 then
    (if dw = 0 then ratTrunc ((dh : Rat) / (areaH : Rat) * (areaW : Rat))
     else dw,
     if dh = 0 then ratTrunc ((dw : Rat) / (areaW : Rat) * (areaH : Rat))
     else dh)
  else (dw, dh)

/-- Property bundle for C7's amended claim: when exactly one requested
dimension is zero and the other is `k`, the kept dimension passes through
unchanged, and in the exactly-representable case — the crop dimension on
the known side divides `k`, so the scale is an integer `m`, with `k` and
`m` times the other crop dimension below `2^53`, which makes every
binary64 operation in the source exact — the missing dimension comes out
as `m` times the other crop dimension, matching the crop aspect ratio
exactly, so `|ow/W - oh/H| = 0`, its minimum. -/
def fillSpec (w h areaW areaH k : Int) : Prop :=
  (fillDims w h areaW areaH 0 k).2 = k ∧
  (fillDims w h areaW areaH k 0).1 = k ∧
  (∀ m : Int, 0 < m → k = areaH * m → k < 2 ^ 53 → m * areaW < 2 ^ 53 →
    (fillDims w h areaW areaH 0 k).1 = m * areaW ∧
    ((fillDims w h areaW areaH 0 k).1 : Rat) / (areaW : Rat) =
      (k : Rat) / (areaH : Rat)) ∧
  (∀ m : Int, 0 < m → k = areaW * m → k < 2 ^ 53 → m * areaH < 2 ^ 53 →
    (fillDims w h areaW areaH k 0).2 = m * areaH ∧
    ((fillDims w h areaW areaH k 0).2 : Rat) / (areaH : Rat) =
      (k : Rat) / (areaW : Rat))

/-- Sentinel the openjpeg callbacks return for failure: an unsigned 64-bit
value with all bits set, obtained in the source as `0 - 1` on
`OPJ_UINT64`/`OPJ_SIZE_T` (both 64-bit here). -/
def opjSentinel : Nat := 2 ^ 64 - 1

/-- A registered stream's behaviour for one callback round, abstracting
the caller-supplied `io.ReadSeeker`: `readResult` is `some n` when `Read`
returns `n` bytes without error and `none` on any error including EOF;
`skipOk` and `seekOk` tell whether the relative and absolute `Seek`
succeed. -/
structure StreamOps where
  readResult : Option Nat
  skipOk : Bool
  seekOk : Bool
deriving DecidableEq, Repr

/-- opjStreamRead (image_stream.go lines 59-82): an unknown stream id or a
failed/EOF read yields the sentinel, otherwise the byte count read (cast
to an unsigned 64-bit value). -/
def opjStreamRead (reg : Nat → Option StreamOps) (sid : Nat) : Nat :=
  match reg sid with
  | none => opjSentinel
  | some s =>
    match s.readResult with
    | none => opjSentinel
    | some n => n % 2 ^ 64

/-- opjStreamSkip (image_stream.go lines 84-101): an unknown stream id or
a failed relative seek yields the sentinel, otherwise the number of bytes
requested (a signed 64-bit count cast to an unsigned size). -/
def opjStreamSkip (reg : Nat → Option StreamOps) (numBytes : Int)
    (sid : Nat) : Nat :=
  match reg sid with
  | none => opjSentinel
  | some s =>
    if s.skipOk = true then (numBytes % (2 : Int) ^ 64).toNat
    else opjSentinel

/-- opjStreamSeek (image_stream.go lines 103-119): true exactly when the
stream is registered and the absolute seek succeeds. -/
def opjStreamSeek (reg : Nat → Option StreamOps) (offset : Int)
    (sid : Nat) : Bool :=
  match reg sid with
  | none => false
  | some s => s.seekOk

/-- Witness registry with a single registered stream at id 1 whose read
returns 42 bytes and whose seeks succeed. -/
def streamReg0 : Nat → Option StreamOps :=
  fun i => if i = 1 then some ⟨some 42, true, true⟩ else none

/-- Splitting a character list at every occurrence of a separator, the
behaviour of Go's `strings.Split` with a one-character separator. -/
def splitOnChar (c : Char) : List Char → List (List Char)
  | [] => [[]]
  | x :: xs =>
    let r := splitOnChar c xs
    if x = c then [] :: r
    else
      match r with
      | [] => [[x]]
      | y :: ys => (x :: y) :: ys

/-- Go's `strings.Split(s, ",")` as used by `acceptsLD`. -/
def splitComma (s : String) : List String :=
  (splitOnChar ',' s.data).map List.asString

/-- acceptsLD (image_handler.go lines 20-30): true when any value of the
request's Accept header, split on commas, contains the exact string
"application/ld+json" (no whitespace trimming). -/
def acceptsLD (accepts : List String) : Bool :=
  accepts.any fun hd => (splitComma hd).any fun a => a == "application/ld+json"

/-- The headers `ImageHandler.Info` sets on an info response. -/
structure InfoResponse where
  contentType : String
  accessControlAllowOrigin : String
deriving DecidableEq, Repr

/-- ImageHandler.Info (image_handler.go lines 232-248): marshal the info
document (which cannot fail for this struct type: it contains only
integers, strings and slices, so `json.Marshal` always succeeds), choose
the content type by `acceptsLD`, and always allow any origin. -/
def infoRespond (accepts : List String) : InfoResponse :=
  { contentType :=
      if acceptsLD accepts = true then "application/ld+json"
      else "application/json",
    accessControlAllowOrigin := "*" }

/-- Scan of a reversed path for Go's `filepath.Ext`: walk from the end of
the path, stop without an extension at a path separator, and return
everything from the last dot (inclusive) otherwise.  The accumulator
holds the characters already passed, in original order. -/
def extSearch : List Char → List Char → Option (List Char)
  | _, [] => none
  | acc, c :: rest =>
    if c = '/' then none
    else if c = '.' then some (c :: acc)
    else extSearch (c :: acc) rest

/-- Go's `filepath.Ext` on a Unix path: the suffix beginning at the final
dot in the final slash-separated element, or the empty string. -/
def goExt (p : String) : String :=
  match extSearch [] p.data.reverse with
  | none => ""
  | some cs => cs.asString

/-- Outcome of a decoder dispatch function: either it attempts a real
decode of the file, or it declines with `img.ErrNotHandled`. -/
inductive DecodeTry
  | attempt
  | notHandled
deriving DecidableEq, Repr

/-- decodeJP2 (the jp2 dispatch next to image_stream.go): attempt exactly
when the path's extension is ".jp2". -/
def decodeJP2 (path : String) : DecodeTry :=
  if goExt path = ".jp2" then .attempt else .notHandled

/-- decodeCommonFile (magick plugin dispatch): the switch on
`filepath.Ext(path)` lists ".tif", ".tiff", ".png", ".jpg", "jpeg" and
".gif" — the fifth case is written without a leading dot in the source,
exactly as modelled here. -/
def decodeCommonFile (path : String) : DecodeTry :=
  if goExt path = ".tif" ∨ goExt path = ".tiff" ∨ goExt path = ".png" ∨
      goExt path = ".jpg" ∨ goExt path = "jpeg" ∨ goExt path = ".gif" then
    .attempt
  else .notHandled

theorem nat_min_div (a b c : Nat) : min a b / c = min (a / c) (b / c) := by
  rcases le_total a b with hab | hab
  · rw [min_eq_left hab, min_eq_left (Nat.div_le_div_right hab)]
  · rw [min_eq_right hab, min_eq_right (Nat.div_le_div_right hab)]

theorem sfLoop_eq (w h : Nat) :
    ∀ n j, ∃ k, k ≤ n ∧
      sfLoop w h (2 ^ j) n = (List.range k).map (fun t => 2 ^ (j + t)) ∧
      (∀ t, t < k → 16 ≤ w / 2 ^ (j + t) ∧ 16 ≤ h / 2 ^ (j + t)) ∧
      (k = n ∨ w / 2 ^ (j + k) < 16 ∨ h / 2 ^ (j + k) < 16) := by
  intro n
  induction n with
  | zero =>
    intro j
    exact ⟨0, Nat.le_refl 0, rfl, fun t ht => absurd ht (Nat.not_lt_zero t),
      Or.inl rfl⟩
  | succ n ih =>
    intro j
    by_cases hc : (w / 2 ^ j < 16 || h / 2 ^ j < 16) = true
    · refine ⟨0, Nat.zero_le _, ?_, fun t ht => absurd ht (Nat.not_lt_zero t),
        Or.inr ?_⟩
      · simp [sfLoop, hc]
      · simpa using hc
    · obtain ⟨k, hk, heq, hmem, hmax⟩ := ih (j + 1)
      have hnc : ¬(w / 2 ^ j < 16 ∨ h / 2 ^ j < 16) := by simpa using hc
      push_neg at hnc
      have hdouble : 2 * 2 ^ j = 2 ^ (j + 1) := by
        rw [pow_succ]
        ring
      refine ⟨k + 1, Nat.succ_le_succ hk, ?_, ?_, ?_⟩
      · have : sfLoop w h (2 ^ j) (n + 1) = 2 ^ j :: sfLoop w h (2 ^ (j + 1)) n := by
          simp [sfLoop, hc, hdouble]
        rw [this, heq, List.range_succ_eq_map, List.map_cons, List.map_map]
        refine congrArg₂ List.cons (by rw [Nat.add_zero]) ?_
        refine List.map_congr_left ?_
        intro t _
        simp [Function.comp]
        ring_nf
      · intro t ht
        match t with
        | 0 => simpa using hnc
        | t + 1 =>
          have := hmem t (Nat.lt_of_succ_lt_succ ht)
          constructor
          · have h1 := this.1
            rwa [show j + 1 + t = j + (t + 1) by ring] at h1
          · have h2 := this.2
            rwa [show j + 1 + t = j + (t + 1) by ring] at h2
      · rcases hmax with hlen | hbound
        · exact Or.inl (by omega)
        · refine Or.inr ?_
          rwa [show j + (k + 1) = j + 1 + k by ring]

theorem infoScaleFactors_eq (w h L : Nat) :
    ∃ k, k ≤ L ∧
      infoScaleFactors w h L = (List.range k).map (fun t => 2 ^ t) ∧
      (∀ t, t < k → 16 ≤ w / 2 ^ t ∧ 16 ≤ h / 2 ^ t) ∧
      (k = L ∨ w / 2 ^ k < 16 ∨ h / 2 ^ k < 16) := by
  obtain ⟨k, hk, heq, hmem, hmax⟩ := sfLoop_eq w h L 0
  refine ⟨k, hk, ?_, ?_, ?_⟩
  · have h1 : (1 : Nat) = 2 ^ 0 := rfl
    rw [infoScaleFactors, h1, heq]
    refine List.map_congr_left ?_
    intro t _
    rw [Nat.zero_add]
  · intro t ht
    have := hmem t ht
    rwa [Nat.zero_add] at this
  · rcases hmax with hkL | hbound
    · exact Or.inl hkL
    · exact Or.inr (by rwa [Nat.zero_add] at hbound)

/-- C1: for every image info with `TileWidth > 0`, width `w`, height `h` and
level count `L`, `buildInfo` emits a single tiles entry whose scaleFactors
are the consecutive powers of two starting at 1, at most `L` of them, each
satisfying `min w h / sf ≥ 16` under integer division, and the list is cut
short only when it already has `L` entries or the next power of two would
violate that bound. -/
theorem buildTiles_scale_factors (tw th w h L : Nat) (htw : 0 < tw) :
    tilesOk tw th w h L := by
  obtain ⟨k, hk, heq, hmem, hmax⟩ := infoScaleFactors_eq w h L
  have hlen : (infoScaleFactors w h L).length = k := by rw [heq]; simp
  refine ⟨by simp [buildTiles, htw], ?_, ?_, ?_, ?_⟩
  · intro i hi
    rw [hlen] at hi
    rw [heq, List.get?_map, List.get?_range hi]
    rfl
  · rw [hlen]; exact hk
  · intro x hx
    rw [heq] at hx
    obtain ⟨t, ht, rfl⟩ := List.mem_map.mp hx
    have ht2 := hmem t (List.mem_range.mp ht)
    rw [nat_min_div]
    exact le_min ht2.1 ht2.2
  · rw [hlen]
    rcases hmax with hkL | hbound
    · exact Or.inl hkL
    · refine Or.inr ?_
      rw [nat_min_div]
      exact min_lt_iff.mpr hbound

/-- Witness for C1 at the spec's own end-to-end example: a 6000×4000 image
with 5 levels and 1024-pixel tiles, whose scale factors are [1,2,4,8,16]. -/
theorem buildTiles_scale_factors_w : 0 < 1024 ∧ tilesOk 1024 0 6000 4000 5 :=
  ⟨by decide, buildTiles_scale_factors 1024 0 6000 4000 5 (by decide)⟩

/-- C2 counterexample: a height-only JPEG request (width 0) satisfies the
claim's cacheability condition (JPEG, both dimensions at most 1024) yet
produces an empty cache key and no tile-cache insertion, because `cacheKey`
also requires `u.Size.W > 0`. -/
theorem cacheKey_zero_width_cx :
    uZeroW.format = ImgFormat.jpg ∧ uZeroW.sizeW ≤ 1024 ∧
    uZeroW.sizeH ≤ 1024 ∧ uZeroW.path ≠ "" ∧ cacheKey true uZeroW = "" ∧
    (command true uZeroW none ⟨1, 1, 1⟩ true true
      (fun _ => .ok ()) true).stored = false :=
  ⟨rfl, by decide, by decide, by decide, by decide, by decide⟩

/-- C2 (amended): with the tile cache enabled and a non-empty IIIF path,
`cacheKey` is non-empty exactly when the format is JPEG, the requested
width is positive and at most 1024, and the requested height is at most
1024; when non-empty it equals the full IIIF path; and a successful
command run stores a tile-cache entry exactly when the key is non-empty. -/
theorem cacheKey_amended (u : IIIFURL) (hp : u.path ≠ "") :
    (cacheKey true u ≠ "" ↔
      (u.format = ImgFormat.jpg ∧ 0 < u.sizeW ∧ u.sizeW ≤ 1024 ∧
        u.sizeH ≤ 1024)) ∧
    (cacheKey true u ≠ "" → cacheKey true u = u.path) ∧
    (∀ g ap, ap (commandConstraint none g) = .ok () →
      ((command true u none g true true ap true).stored = true ↔
        cacheKey true u ≠ "")) := by
  refine ⟨?_, ?_, ?_⟩
  · by_cases hcond : u.format = ImgFormat.jpg ∧ 0 < u.sizeW ∧
        u.sizeW ≤ 1024 ∧ u.sizeH ≤ 1024
    · simp [cacheKey, hcond, hp]
    · simp [cacheKey, hcond]
  · intro hne
    by_cases hcond : u.format = ImgFormat.jpg ∧ 0 < u.sizeW ∧
        u.sizeW ≤ 1024 ∧ u.sizeH ≤ 1024
    · simp [cacheKey, hcond]
    · exact absurd (by simp [cacheKey, hcond]) hne
  · intro g ap hap
    simp [command, hap]

/-- Witness for C2's amended claim at a 1024×1024 JPEG request: the key is
the full IIIF path and the entry is stored. -/
theorem cacheKey_amended_w :
    cacheKey true uCacheable = uCacheable.path ∧
    (command true uCacheable none ⟨1, 1, 1⟩ true true
      (fun _ => Except.ok ()) true).stored = true := by
  have h := cacheKey_amended uCacheable (by decide)
  refine ⟨h.2.1 (by decide), ?_⟩
  exact (h.2.2 ⟨1, 1, 1⟩ (fun _ => Except.ok ()) rfl).mpr (by decide)

/-- C3: the handler maps request outcomes to statuses: grammar violations
that are not valid base-URI requests get 400 (both at parse time and when
a parsed command URL fails validation), a missing source gets 404 (both in
the info-loading step and when opening the resource), a feature-set
rejection or a dimension-limit violation gets 501, and any other decode or
encode failure gets 500. -/
theorem iiifRoute_statuses (e : RouteEnv) (u : IIIFURL) (ii : ImageInfo)
    (m : String) :
    (e.parsed = none → isValidBasePath e = false →
      iiifRoute e = .err 400 "Invalid IIIF request") ∧
    (e.parsed = some u → e.cached = none → e.overrideDoc = none →
      e.resource = .error .doesNotExist →
      (iiifRoute e).statusCode = some 404) ∧
    (e.parsed = some u → e.cached = some ii → u.isInfo = false →
      e.cacheHit = false → e.newResource = .error .doesNotExist →
      (iiifRoute e).statusCode = some 404) ∧
    (e.parsed = some u → e.cached = some ii → u.isInfo = false →
      e.cacheHit = false → e.newResource = .ok () → e.urlValid = false →
      (iiifRoute e).statusCode = some 400) ∧
    (e.parsed = some u → e.cached = some ii → u.isInfo = false →
      e.cacheHit = false → e.newResource = .ok () → e.urlValid = true →
      e.headersOk = true → e.supported = false →
      (iiifRoute e).statusCode = some 501) ∧
    (e.parsed = some u → e.cached = some ii → u.isInfo = false →
      e.cacheHit = false → e.newResource = .ok () → e.urlValid = true →
      e.headersOk = true → e.supported = true →
      e.apply (commandConstraint (some (buildInfo e.maximums ii))
        e.maximums) = .error .dimensionsExceedLimits →
      (iiifRoute e).statusCode = some 501) ∧
    (e.parsed = some u → e.cached = some ii → u.isInfo = false →
      e.cacheHit = false → e.newResource = .ok () → e.urlValid = true →
      e.headersOk = true → e.supported = true →
      e.apply (commandConstraint (some (buildInfo e.maximums ii))
        e.maximums) = .error (.other m) →
      (iiifRoute e).statusCode = some 500) ∧
    (e.parsed = some u → e.cached = some ii → u.isInfo = false →
      e.cacheHit = false → e.newResource = .ok () → e.urlValid = true →
      e.headersOk = true → e.supported = true →
      e.apply (commandConstraint (some (buildInfo e.maximums ii))
        e.maximums) = .ok () → e.encodeOk = false →
      (iiifRoute e).statusCode = some 500) := by
  refine ⟨?_, ?_, ?_, ?_, ?_, ?_, ?_, ?_⟩
  · intro h1 h2
    simp [iiifRoute, h1, h2]
  · intro h1 h2 h3 h4
    simp [iiifRoute, getInfo, h1, h2, h3, h4, newImageResError, NewError,
      RouteResult.statusCode]
  · intro h1 h2 h3 h4 h5
    simp [iiifRoute, getInfo, h1, h2, h3, h4, h5, newImageResError,
      NewError, RouteResult.statusCode]
  · intro h1 h2 h3 h4 h5 h6
    simp [iiifRoute, getInfo, h1, h2, h3, h4, h5, h6,
      RouteResult.statusCode]
  · intro h1 h2 h3 h4 h5 h6 h7 h8
    simp [iiifRoute, getInfo, command, h1, h2, h3, h4, h5, h6, h7, h8,
      RouteResult.statusCode]
  · intro h1 h2 h3 h4 h5 h6 h7 h8 h9
    simp [iiifRoute, getInfo, command, h1, h2, h3, h4, h5, h6, h7, h8, h9,
      newImageResError, NewError, RouteResult.statusCode]
  · intro h1 h2 h3 h4 h5 h6 h7 h8 h9
    simp [iiifRoute, getInfo, command, h1, h2, h3, h4, h5, h6, h7, h8, h9,
      newImageResError, NewError, ImgErr.errorString,
      RouteResult.statusCode]
  · intro h1 h2 h3 h4 h5 h6 h7 h8 h9 h10
    simp [iiifRoute, getInfo, command, h1, h2, h3, h4, h5, h6, h7, h8, h9,
      h10, RouteResult.statusCode]

/-- Witness for C3: concrete environments hitting the 400, 404, 501 and
500 branches. -/
theorem iiifRoute_statuses_w :
    iiifRoute env400 = RouteResult.err 400 "Invalid IIIF request" ∧
    (iiifRoute env404).statusCode = some 404 ∧
    (iiifRoute env501).statusCode = some 501 ∧
    (iiifRoute env500).statusCode = some 500 := by
  refine ⟨(iiifRoute_statuses env400 uCmd infoII "m").1 rfl rfl,
    (iiifRoute_statuses env404 uCmd infoII "m").2.1 rfl rfl rfl rfl,
    (iiifRoute_statuses env501 uCmd infoII "m").2.2.2.2.1 rfl rfl rfl rfl
      rfl rfl rfl rfl,
    (iiifRoute_statuses env500 uCmd infoII "m").2.2.2.2.2.2.2 rfl rfl rfl
      rfl rfl rfl rfl rfl rfl rfl⟩

/-- C4: a request path that fails IIIF parsing is answered with a 303
redirect to the original request URL plus "/info.json" exactly when the
path with "/info.json" appended parses and its info loads without error;
otherwise it is answered with 400. -/
theorem iiifRoute_base_redirect (e : RouteEnv) :
    (isValidBasePath e = true ↔
      ((∃ u, e.baseParsed = some u) ∧
        ∃ d, getInfo e.baseCached e.baseOverride e.baseResource
          e.maximums = .ok d)) ∧
    (e.parsed = none → isValidBasePath e = true →
      iiifRoute e = .redirect 303 (e.reqURL ++ "/info.json")) ∧
    (e.parsed = none → isValidBasePath e = false →
      iiifRoute e = .err 400 "Invalid IIIF request") := by
  refine ⟨?_, ?_, ?_⟩
  · cases hb : e.baseParsed with
    | none => simp [isValidBasePath, hb]
    | some u =>
      cases hg : getInfo e.baseCached e.baseOverride e.baseResource
          e.maximums with
      | error he => simp [isValidBasePath, hb, hg]
      | ok d => simp [isValidBasePath, hb, hg]
  · intro h1 h2
    simp [iiifRoute, h1, h2]
  · intro h1 h2
    simp [iiifRoute, h1, h2]

/-- Witness for C4: an unparseable path whose "/info.json" extension
parses and resolves is redirected; without that it gets 400. -/
theorem iiifRoute_base_redirect_w :
    iiifRoute envRedir =
      RouteResult.redirect 303 (envRedir.reqURL ++ "/info.json") ∧
    iiifRoute env400 = RouteResult.err 400 "Invalid IIIF request" :=
  ⟨(iiifRoute_base_redirect envRedir).2.1 rfl rfl,
   (iiifRoute_base_redirect env400).2.2 rfl rfl⟩

/-- C6: the constraint actually applied by `Command`: with no info
document the handler's global maximums are used unchanged; with an info
document only its profile maxima matter (the global constraint does not
influence the result), and each zero field is replaced by the largest
representable value of its Go type (`MaxInt32` for width and height,
`MaxInt64` for area). -/
theorem commandConstraint_spec (doc : InfoDoc) (g g2 : Constraint) :
    commandConstraint none g = g ∧
    commandConstraint (some doc) g = commandConstraint (some doc) g2 ∧
    (commandConstraint (some doc) g).width =
      (if (doc.profileMax.getD ⟨0, 0, 0⟩).width = 0 then maxInt32
       else (doc.profileMax.getD ⟨0, 0, 0⟩).width) ∧
    (commandConstraint (some doc) g).height =
      (if (doc.profileMax.getD ⟨0, 0, 0⟩).height = 0 then maxInt32
       else (doc.profileMax.getD ⟨0, 0, 0⟩).height) ∧
    (commandConstraint (some doc) g).area =
      (if (doc.profileMax.getD ⟨0, 0, 0⟩).area = 0 then maxInt64
       else (doc.profileMax.getD ⟨0, 0, 0⟩).area) ∧
    maxInt32 = 2 ^ 31 - 1 ∧ maxInt64 = 2 ^ 63 - 1 :=
  ⟨rfl, rfl, rfl, rfl, rfl, rfl, rfl⟩

/-- C5 counterexample: for a 100×100 image and a constraint of width 50,
height 200 and a large area, the profile maxima are included (the
constraint is narrower than the image) but the advertised height is the
constraint's 200, not the tighter of image height and constraint (100). -/
theorem buildInfo_profile_cx :
    (buildInfo cxConstraint cxImage).profileMax =
      some ⟨50, 200, 1000000000⟩ ∧
    min ((cxImage.height : Int)) cxConstraint.height = 100 ∧
    (200 : Int) ≠ 100 :=
  ⟨by decide, by decide, by decide⟩

/-- C5 (amended): the profile maxima are included exactly when the
constraint is smaller than the image in width, height or area, and the
included maxima are the configured constraint's three values verbatim
(which may exceed the image in the non-binding dimensions). -/
theorem buildInfo_profile (c : Constraint) (i : ImageInfo) :
    ((buildInfo c i).profileMax.isSome = true ↔
      (c.width < (i.width : Int) ∨ c.height < (i.height : Int) ∨
        c.area < (i.width : Int) * (i.height : Int))) ∧
    (∀ p, (buildInfo c i).profileMax = some p →
      p = ⟨c.width, c.height, c.area⟩) := by
  have hiff : smallerThanAny c i.width i.height = true ↔
      (c.width < (i.width : Int) ∨ c.height < (i.height : Int) ∨
        c.area < (i.width : Int) * (i.height : Int)) := by
    simp [smallerThanAny, or_assoc]
  refine ⟨?_, ?_⟩
  · rw [← hiff]
    by_cases hs : smallerThanAny c i.width i.height = true
    · simp [buildInfo, hs]
    · simp [buildInfo, hs]
  · intro p hp
    by_cases hs : smallerThanAny c i.width i.height = true
    · simp [buildInfo, hs] at hp
      exact hp.symm
    · simp [buildInfo, hs] at hp

/-- Witness for C5's amended claim at the counterexample image: the
profile is present and equals the constraint's values. -/
theorem buildInfo_profile_w :
    (buildInfo cxConstraint cxImage).profileMax.isSome = true ∧
    (⟨50, 200, 1000000000⟩ : Constraint) =
      ⟨cxConstraint.width, cxConstraint.height, cxConstraint.area⟩ := by
  have h := buildInfo_profile cxConstraint cxImage
  exact ⟨h.1.mpr (Or.inl (by decide)),
    h.2 ⟨50, 200, 1000000000⟩ (by decide)⟩

/-- C7 counterexample: for a 7×4 crop region and a requested height of 1,
the decoder computes output width `int((1/4)*7) = 1` (every intermediate
float64 value here — 0.25 and 1.75 — is exactly representable), yet width
2 makes `|ow/W - oh/H|` strictly smaller, so the computed dimension does
not minimise that quantity. -/
theorem fillDims_not_minimizing :
    fillDims 100 50 7 4 0 1 = (1, 1) ∧
    |(2 : Rat) / 7 - 1 / 4| < |(1 : Rat) / 7 - 1 / 4| := by
  constructor
  · have hq : ((1 : Int) : Rat) / ((4 : Int) : Rat) * ((7 : Int) : Rat) =
        7 / 4 := by norm_num
    have ht : ratTrunc (7 / 4 : Rat) = 1 := by
      rw [ratTrunc, if_neg (by norm_num), Int.floor_eq_iff]
      norm_num
    simp only [fillDims]
    norm_num [hq, ht]
  · rw [abs_of_pos (by norm_num : (0 : Rat) < 2 / 7 - 1 / 4),
      abs_of_neg (by norm_num : (1 : Rat) / 7 - 1 / 4 < 0)]
    norm_num

/-- C7 (amended): when exactly one requested dimension is zero and the
other is a positive `k`, the kept dimension passes through unchanged, and
in the case where the crop dimension on the known side divides `k` (the
scale is an integer `m`) with `k` and `m` times the other crop dimension
below `2^53` — so every binary64 operation performed by the source is
exact and the rational model coincides with it — the missing dimension is
`m` times the other crop dimension, which matches the crop aspect ratio
exactly, making `|ow/W - oh/H|` zero and in particular minimal.  Outside
that case no positive statement is made: the counterexample above shows
the computed dimension need not minimise `|ow/W - oh/H|`. -/
theorem fillDims_aspect (w h areaW areaH k : Int) (hW : 0 < areaW)
    (hH : 0 < areaH) (hk : 0 < k) : fillSpec w h areaW areaH k := by
  have hk0 : ¬k = 0 := hk.ne'
  have hWq : (0 : Rat) < (areaW : Rat) := by exact_mod_cast hW
  have hHq : (0 : Rat) < (areaH : Rat) := by exact_mod_cast hH
  have e1 : fillDims w h areaW areaH 0 k =
      (ratTrunc ((k : Rat) / (areaH : Rat) * (areaW : Rat)), k) := by
    simp [fillDims, hk0]
  have e2 : fillDims w h areaW areaH k 0 =
      (k, ratTrunc ((k : Rat) / (areaW : Rat) * (areaH : Rat))) := by
    simp [fillDims, hk0]
  refine ⟨by rw [e1], by rw [e2], ?_, ?_⟩
  · intro m hm hkm _ _
    have hcast : (k : Rat) = (areaH : Rat) * (m : Rat) := by
      exact_mod_cast congrArg (fun z : Int => (z : Rat)) hkm
    have hmq : (k : Rat) / (areaH : Rat) * (areaW : Rat) =
        ((m * areaW : Int) : Rat) := by
      rw [hcast]
      push_cast
      field_simp
    have hval : (fillDims w h areaW areaH 0 k).1 = m * areaW := by
      rw [e1]
      dsimp only
      rw [hmq, ratTrunc,
        if_neg (not_lt.mpr (by exact_mod_cast (mul_pos hm hW).le)),
        Int.floor_intCast]
    refine ⟨hval, ?_⟩
    rw [hval]
    push_cast
    rw [hcast]
    rw [mul_div_assoc, div_self hWq.ne', mul_one, mul_comm,
      mul_div_assoc, div_self hHq.ne', mul_one]
  · intro m hm hkm _ _
    have hcast : (k : Rat) = (areaW : Rat) * (m : Rat) := by
      exact_mod_cast congrArg (fun z : Int => (z : Rat)) hkm
    have hmq : (k : Rat) / (areaW : Rat) * (areaH : Rat) =
        ((m * areaH : Int) : Rat) := by
      rw [hcast]
      push_cast
      field_simp
    have hval : (fillDims w h areaW areaH k 0).2 = m * areaH := by
      rw [e2]
      dsimp only
      rw [hmq, ratTrunc,
        if_neg (not_lt.mpr (by exact_mod_cast (mul_pos hm hH).le)),
        Int.floor_intCast]
    refine ⟨hval, ?_⟩
    rw [hval]
    push_cast
    rw [hcast]
    rw [mul_div_assoc, div_self hHq.ne', mul_one, mul_comm,
      mul_div_assoc, div_self hWq.ne', mul_one]

/-- Witness for C7's amended claim: a 6×4 crop with requested height 8
has integer scale 2, so the computed width is 12 and the aspect matches
exactly. -/
theorem fillDims_aspect_w :
    0 < (6 : Int) ∧ 0 < (4 : Int) ∧ 0 < (8 : Int) ∧ fillSpec 10 10 6 4 8 ∧
    (fillDims 10 10 6 4 0 8).1 = 12 := by
  have h := fillDims_aspect 10 10 6 4 8 (by decide) (by decide) (by decide)
  refine ⟨by decide, by decide, by decide, h, ?_⟩
  have h2 := (h.2.2.1 2 (by decide) (by decide) (by decide) (by decide)).1
  omega

/-- C8: the stream-bridge callbacks return the all-bits-set sentinel on an
unknown id, on a failed or end-of-stream read, and on a failed relative
seek; a successful read returns the byte count, a successful skip returns
the number of bytes requested, and the absolute seek returns true exactly
when the stream is registered and the seek succeeds. -/
theorem opjStream_callbacks (reg : Nat → Option StreamOps) (sid : Nat)
    (s : StreamOps) (n : Nat) (numBytes offset : Int) :
    (reg sid = none → opjStreamRead reg sid = opjSentinel ∧
      opjStreamSkip reg numBytes sid = opjSentinel ∧
      opjStreamSeek reg offset sid = false) ∧
    (reg sid = some s → s.readResult = none →
      opjStreamRead reg sid = opjSentinel) ∧
    (reg sid = some s → s.readResult = some n → n < 2 ^ 64 →
      opjStreamRead reg sid = n) ∧
    (reg sid = some s → s.skipOk = true → 0 ≤ numBytes →
      numBytes < 2 ^ 63 →
      opjStreamSkip reg numBytes sid = numBytes.toNat) ∧
    (reg sid = some s → s.skipOk = false →
      opjStreamSkip reg numBytes sid = opjSentinel) ∧
    (opjStreamSeek reg offset sid = true ↔
      ∃ t, reg sid = some t ∧ t.seekOk = true) := by
  refine ⟨?_, ?_, ?_, ?_, ?_, ?_⟩
  · intro h1
    simp [opjStreamRead, opjStreamSkip, opjStreamSeek, h1]
  · intro h1 h2
    simp [opjStreamRead, h1, h2]
  · intro h1 h2 h3
    simp [opjStreamRead, h1, h2]
    omega
  · intro h1 h2 h3 h4
    simp [opjStreamSkip, h1, h2]
    omega
  · intro h1 h2
    simp [opjStreamSkip, h1, h2]
  · cases hr : reg sid with
    | none => simp [opjStreamSeek, hr]
    | some t => simp [opjStreamSeek, hr]

/-- Witness for C8 on a registry with one registered stream. -/
theorem opjStream_callbacks_w :
    opjStreamRead streamReg0 1 = 42 ∧ opjStreamSkip streamReg0 5 1 = 5 ∧
    opjStreamSeek streamReg0 9 1 = true ∧
    opjStreamRead streamReg0 2 = opjSentinel := by
  have h1 := opjStream_callbacks streamReg0 1 ⟨some 42, true, true⟩ 42 5 9
  have h2 := opjStream_callbacks streamReg0 2 ⟨some 42, true, true⟩ 42 5 9
  refine ⟨h1.2.2.1 rfl rfl (by norm_num), ?_, ?_, (h2.1 rfl).1⟩
  · exact h1.2.2.2.1 rfl rfl (by norm_num) (by norm_num)
  · exact (h1.2.2.2.2.2).mpr ⟨⟨some 42, true, true⟩, rfl, rfl⟩

/-- C9: an info response's content type is application/ld+json exactly
when some Accept header value, split on commas, contains the exact string
"application/ld+json"; otherwise it is application/json; and the response
always allows any origin. -/
theorem infoRespond_negotiation (accepts : List String) :
    ((infoRespond accepts).contentType = "application/ld+json" ↔
      ∃ hd ∈ accepts, "application/ld+json" ∈ splitComma hd) ∧
    ((¬ ∃ hd ∈ accepts, "application/ld+json" ∈ splitComma hd) →
      (infoRespond accepts).contentType = "application/json") ∧
    (infoRespond accepts).accessControlAllowOrigin = "*" := by
  have hiff : acceptsLD accepts = true ↔
      ∃ hd ∈ accepts, "application/ld+json" ∈ splitComma hd := by
    simp [acceptsLD, List.any_eq_true]
  have hne : ("application/json" : String) ≠ "application/ld+json" := by
    decide
  refine ⟨?_, ?_, rfl⟩
  · rw [← hiff]
    by_cases hA : acceptsLD accepts = true
    · simp [infoRespond, hA]
    · simp [infoRespond, hA, hne]
  · intro hnot
    by_cases hA : acceptsLD accepts = true
    · exact absurd (hiff.mp hA) hnot
    · simp [infoRespond, hA]

/-- Witness for C9: an Accept header listing exactly the LD media type
gets it back; one that does not gets plain JSON with the CORS header. -/
theorem infoRespond_negotiation_w :
    (infoRespond ["application/ld+json"]).contentType =
      "application/ld+json" ∧
    (infoRespond ["text/html"]).contentType = "application/json" ∧
    (infoRespond ["text/html"]).accessControlAllowOrigin = "*" := by
  have h1 := infoRespond_negotiation ["application/ld+json"]
  have h2 := infoRespond_negotiation ["text/html"]
  refine ⟨h1.1.mpr ⟨"application/ld+json", by simp, by decide⟩,
    h2.2.1 (by decide), h2.2.2⟩

/-- C10: dispatch is by filename suffix, but the magick dispatcher's
switch lists "jpeg" without a leading dot while `filepath.Ext` always
includes the dot, so a ".jpeg" path is declined with NotHandled contrary
to the claim; the ".jp2" and ".jpg" dispatches behave as claimed. -/
theorem decodeCommonFile_jpeg_bug :
    goExt "photo.jpeg" = ".jpeg" ∧
    decodeCommonFile "photo.jpeg" = DecodeTry.notHandled ∧
    decodeJP2 "photo.jp2" = DecodeTry.attempt ∧
    decodeJP2 "photo.jpeg" = DecodeTry.notHandled ∧
    decodeCommonFile "photo.jpg" = DecodeTry.attempt :=
  ⟨by decide, by decide, by decide, by decide, by decide⟩
